import Mathlib

/-!
Verification of the `not-synchronous` asynchronous utility library.

Shallow embedding of the core components described by the specification:
the FIFO/LIFO ordered queue (`src/_internals/stack.ts`), the event emitter
(`EventEmitter.emit` and the registry operations), the job scheduler
(`EventLoop`), the deferred handle, and the bounded concurrency runners
(`mapPromises` / `promiseConcurrency` in `src/concurrently.ts`).

Machine integers of the source are modelled as `Nat`/`Int`; JavaScript
array primitives (`splice`, `indexOf`, `unshift`) are modelled with their
ECMAScript index-normalization semantics where the source relies on them.
-/

namespace NotSync

/-! ## JavaScript array primitives

`Array.prototype.splice(start, 1)` normalizes a negative `start` to
`max(length + start, 0)` and clamps a positive one to `length`; it then
removes the element at that position when one exists.
`Array.prototype.indexOf` yields the index of the first strictly-equal
element, `-1` when absent. -/

/-- ECMAScript index normalization for `splice(start, ...)`:
negative indices count from the end and clamp at `0`; positive ones clamp
at `len`. -/
def spliceStart (len : Nat) (start : Int) : Nat :=
  if start < 0 then (len + start).toNat else min start.toNat len

/-- `arr.splice(start, 1)` — the array after removing (at most) one element
at the normalized position. -/
def spliceRemoveOne {T : Type} (l : List T) (start : Int) : List T :=
  l.eraseIdx (spliceStart l.length start)

/-- `arr.indexOf(x)`: index of the first occurrence, `-1` when absent. -/
def jsIndexOf {T : Type} [BEq T] (l : List T) (x : T) : Int :=
  match l.indexOf? x with
  | some i => (i : Int)
  | none => -1

/-! ## Ordered queue (`src/_internals/stack.ts`, class `Stack`) -/

/-- The ordering policy of `Stack` (enum `Order` in `stack.ts`). -/
inductive StackOrder where
  | fifo
  | lifo
deriving DecidableEq, Repr

/-- `Stack<T>`: the `#order` field and the `#items` backing array. -/
structure Stack (T : Type) where
  order : StackOrder
  items : List T
deriving DecidableEq, Repr

namespace Stack

/-- `push(...items)`: `Array.push` (append) under FIFO, `Array.unshift`
(prepend) under LIFO. -/
def push {T : Type} (s : Stack T) (newItems : List T) : Stack T :=
  match s.order with
  | .fifo => { s with items := s.items ++ newItems }
  | .lifo => { s with items := newItems ++ s.items }

/-- `pop()` as written in the source: when non-empty, splice out the element
at index `0` (FIFO) or `length - 1` (LIFO); then, when the removed item is
truthy, look it up with `indexOf` in the ALREADY-SPLICED array and
`splice(index, 1)` again (with `index = -1` when the item does not occur a
second time). `truthy` models JavaScript truthiness of the item values. -/
def pop {T : Type} [BEq T] (truthy : T → Bool) (s : Stack T) :
    Option T × Stack T :=
  if s.items.length > 0 then
    let start : Nat :=
      match s.order with
      | .fifo => 0
      | .lifo => s.items.length - 1
    match s.items.get? start with
    | none => (none, s)
    | some item =>
      let rest := s.items.eraseIdx start
      if truthy item then
        (some item, { s with items := spliceRemoveOne rest (jsIndexOf rest item) })
      else
        (some item, { s with items := rest })
  else
    (none, s)

/-- `size()`. -/
def size {T : Type} (s : Stack T) : Nat :=
  s.items.length

/-- `isEmpty()`. -/
def isEmpty {T : Type} (s : Stack T) : Bool :=
  s.items.length == 0

/-- `clear()`. -/
def clear {T : Type} (s : Stack T) : Stack T :=
  { s with items := [] }

/-- `peek()`: last element or `null`. -/
def peek {T : Type} (s : Stack T) : Option T :=
  if s.items.length > 0 then s.items.get? (s.items.length - 1) else none

end Stack

/-! ## Scheduler drain order (`EventLoop.#execute`)

The scheduler's queue is a FIFO `Stack` (`new Stack({ order: Order.FIFO })`)
and effective concurrency is forced to `1` by the constructor
(`Object.assign({}, options, { concurrency: 1 })`).  A drain tick
(`#execute`) proceeds only when nothing is in flight and pops one job into
the in-flight set; jobs are identified here by their numeric id and are
always truthy (they are objects). -/

/-- Queue state after `add()` has been called once per element of `jobs`
(FIFO pushes append). -/
def addAll (jobs : List Nat) : Stack Nat :=
  Stack.push { order := .fifo, items := [] } jobs

/-- The sequence of jobs handed to the processing function by successive
drain ticks, under the most favorable schedule: each tick pops one job
(concurrency is 1) and the job settles before the next tick.  `fuel` bounds
the number of ticks. -/
def dispatchOrder (fuel : Nat) (s : Stack Nat) : List Nat :=
  match fuel with
  | 0 => []
  | fuel + 1 =>
    match Stack.pop (fun _ => true) s with
    | (none, _) => []
    | (some j, s') => j :: dispatchOrder fuel s'

/-! ## Event emitter (`EventEmitter` in the events module) -/

/-- One entry of a per-event listener array.  `signature` stands for
`listenerSignature` (the SHA-256 of the listener's source text, structural
identity); `subId` stands for the `subscriptionId` uuid (unique per
subscription). -/
structure Subscription where
  signature : Nat
  subId : Nat
  once : Bool
  calls : Nat
  isDisposed : Bool
deriving DecidableEq, Repr

/-- The `unsubscribe` closure created in `subscribe`: find the first entry
whose `listenerSignature` matches and splice it out. -/
def unsubscribeBySig (sig : Nat) (l : List Subscription) : List Subscription :=
  match l.findIdx? (fun s => s.signature == sig) with
  | some i => l.eraseIdx i
  | none => l

/-- The body of `emit`'s `for(const subscription of listeners)` loop.
JavaScript's array iterator reads `listeners[i]` for `i = 0, 1, ...` against
the LIVE array, so mutations performed inside the loop (the move-to-back
`splice` + `push`, and `unsubscribe`) are visible to subsequent iterations.
Returns the signatures of the listeners invoked, in invocation order, and
the final listener array.  `fuel` bounds the iteration count (the array
never grows, so `l.length` iterations suffice). -/
def emitLoop : Nat → Nat → List Subscription → List Nat → List Nat × List Subscription
  | 0, _, l, acc => (acc.reverse, l)
  | fuel + 1, i, l, acc =>
    match l.get? i with
    | none => (acc.reverse, l)
    | some sub =>
      if sub.isDisposed then
        emitLoop fuel (i + 1) l acc
      else if sub.once && decide (sub.calls > 0) then
        emitLoop fuel (i + 1) (unsubscribeBySig sub.signature l) acc
      else
        -- invoke the listener, then `subscription.calls++`, then move the
        -- (mutated) subscription object to the back of the array
        let sub' : Subscription := { sub with calls := sub.calls + 1 }
        let moved :=
          match l.findIdx? (fun t => t.subId == sub.subId) with
          | some j => (l.eraseIdx j) ++ [sub']
          | none => l
        emitLoop fuel (i + 1) moved (sub.signature :: acc)

/-- `emit(eventName, ...)` restricted to the listener array of one event
name: the loop above, starting at index 0. -/
def emit (l : List Subscription) : List Nat × List Subscription :=
  emitLoop l.length 0 l []

/-! ## JavaScript values and the `failed`-event error normalization
(`EventLoop.#execute`, the `.catch(err => ...)` handlers) -/

/-- The shapes of JavaScript values a rejection reason can take, as far as
the normalization code distinguishes them: primitives, `null`, `Error`
instances, plain objects (optionally carrying a string `message` property),
and all other objects (arrays, class instances, dates, ...). -/
inductive JSVal where
  | vnull
  | vundefined
  | vstr (s : String)
  | vnum (n : Int)
  | vbool (b : Bool)
  | verror (msg : String)
  | vplain (msg : Option String)
  | vobjOther
deriving DecidableEq, Repr

namespace JSVal

/-- `typeof v === 'object'` (true for `null`, `Error`s, plain and other
objects; false for primitives and `undefined`). -/
def typeofObject : JSVal → Bool
  | vnull => true
  | verror _ => true
  | vplain _ => true
  | vobjOther => true
  | _ => false

/-- `v instanceof Error`. -/
def isErrorInstance : JSVal → Bool
  | verror _ => true
  | _ => false

/-- `String(v)` as used by the `Error` constructor on its argument. -/
def jsToString : JSVal → String
  | vnull => "null"
  | vundefined => ""
  | vstr s => s
  | vnum n => toString n
  | vbool b => if b then "true" else "false"
  | verror m => "Error: " ++ m
  | vplain _ => "[object Object]"
  | vobjOther => "[object Object]"

end JSVal

/-- Modelled from the spec: `isPlainObject` lives in `_internals/utils.ts`,
which is not part of the provided sources; the spec treats it as an external
utility predicate consumed through its documented signature, true exactly on
plain objects (object literals / `Object`-prototype objects), and false on
`null`, arrays, `Error`s and other class instances. -/
def isPlainObject : JSVal → Bool
  | .vplain _ => true
  | _ => false

/-- `new Error(typeof err === 'object' ? err.message ?? err : err)` — the
message given to the replacement `Error`.  (Only ever evaluated on
non-objects and plain objects, where reading `.message` is safe.) -/
def normalizedMessage (err : JSVal) : String :=
  if err.typeofObject then
    match err with
    | .vplain (some m) => m
    | _ => err.jsToString
  else
    err.jsToString

/-- The rejection-reason normalization in both `.catch` handlers of
`EventLoop.#execute`:
`if(typeof err !== 'object' || isPlainObject(err)) err = new Error(...)`. -/
def normalizeJsError (err : JSVal) : JSVal :=
  if !err.typeofObject || isPlainObject err then
    .verror (normalizedMessage err)
  else
    err

/-! ## Per-job execution with a timeout (`EventLoop.#execute`, the
`options.timeout > 0` branch)

The source races the processing function against a `setTimeout` timer via
`Promise.race`; the timer callback calls `ac.abort(...)` and rejects with a
timeout `Error`.  Real time is abstracted into which contestant settles
first (`timerFirst`); the processing function's own settlement is an
abstract outcome. -/

/-- Settlement of the processing function's promise. -/
inductive ProcOutcome where
  | fulfilled (v : JSVal)
  | rejected (e : JSVal)
deriving DecidableEq, Repr

/-- The lifecycle event emitted for the job once the race settles. -/
inductive JobEvent where
  | completed (result : JSVal)
  | failed (error : JSVal)
deriving DecidableEq, Repr

/-- The timeout `Error` created in the timer callback:
`new Error(`Timeout of ${T}ms exceeded`)`. -/
def timeoutError (T : Nat) : JSVal :=
  .verror ("Timeout of " ++ toString T ++ "ms exceeded")

/-- `Promise.race` between the processing function and the timeout timer:
when the timer fires first the race rejects with the timeout error,
otherwise the processing function's own settlement wins. -/
def raceOutcome (T : Nat) (timerFirst : Bool) (proc : ProcOutcome) : ProcOutcome :=
  if timerFirst then .rejected (timeoutError T) else proc

/-- The `.then`/`.catch` pair attached to the race: fulfillment emits a
`completed` event with the result, rejection normalizes the reason and
emits a `failed` event. -/
def settleHandlers : ProcOutcome → JobEvent
  | .fulfilled v => .completed v
  | .rejected e => .failed (normalizeJsError e)

/-- Outcome of executing one job whose `options.timeout = T > 0`: the
emitted event, and whether `ac.abort` has been called by the time the job
settles (the abort happens in the timer callback, immediately before the
timer's rejection). -/
structure TimedExec where
  event : JobEvent
  abortTriggeredAtSettle : Bool
deriving DecidableEq, Repr

/-- One `processJob` run of the timeout branch. -/
def executeTimedJob (T : Nat) (timerFirst : Bool) (proc : ProcOutcome) : TimedExec :=
  { event := settleHandlers (raceOutcome T timerFirst proc)
    abortTriggeredAtSettle := timerFirst }

/-- Whether a job event is a `completed` event. -/
def JobEvent.isCompleted : JobEvent → Bool
  | .completed _ => true
  | .failed _ => false

/-! ## Bounded concurrency runners (`src/concurrently.ts`)

`mapPromises(args, callback, concurrency)` and
`promiseConcurrency(callbacks, concurrency)` share one algorithm verbatim
(the only difference is whether item `i`'s work is `callback(...args[i])`
or `callbacks[i]()`); here item `i`'s work is abstracted into its eventual
settlement `outcomes[i]`.  The shared state is the closure state of one
call: the `cursor`, the `settled` counter, the `results` array, the
`deferred` aggregate handle, plus (implicitly, as the set of launched
per-item promise chains that have not yet run their final `.then`) the
in-flight index set `pending`.  Asynchrony is modelled by an explicit
schedule: each schedule entry picks which in-flight item settles next; the
`EventLoop.immediate(next)` deferral after a settlement is the embedded
`launchNext` call. -/

/-- Eventual settlement of item `i`'s asynchronous work. -/
inductive ItemOutcome (T E : Type) where
  | ok (v : T)
  | err (e : E)
deriving DecidableEq, Repr

/-- `Result<T>`: `{ status: 'fulfilled', value }` or
`{ status: 'rejected', reason }`. -/
inductive RunnerResult (T E : Type) where
  | fulfilled (value : T)
  | rejected (reason : E)
deriving DecidableEq, Repr

/-- Settlement of the aggregate `Deferred`'s promise (first settlement
wins, as for any promise). -/
inductive DeferredOut (A : Type) where
  | resolved (value : A)
  | rejected
deriving DecidableEq, Repr

/-- Closure state of one `mapPromises` / `promiseConcurrency` call. -/
structure RunnerState (T E : Type) where
  cursor : Nat
  settled : Nat
  results : List (Option (RunnerResult T E))
  pending : List Nat
  outcome : Option (DeferredOut (List (Option (RunnerResult T E))))
deriving DecidableEq, Repr

/-- The entry the `.then`/`.catch` pair writes into `results[i]`. -/
def resultOf {T E : Type} (outcomes : List (ItemOutcome T E)) (i : Nat) :
    Option (RunnerResult T E) :=
  match outcomes.get? i with
  | some (.ok v) => some (.fulfilled v)
  | some (.err e) => some (.rejected e)
  | none => none

/-- One call of the closure `next()`: if the cursor has not reached the end
of the input list, claim index `cursor` and launch its work (it becomes
in-flight); otherwise, if every item has settled, resolve the aggregate
deferred with the results array (a promise only settles once, so an earlier
settlement is kept). -/
def launchNext {T E : Type} (N : Nat) (st : RunnerState T E) : RunnerState T E :=
  if st.cursor < N then
    { st with cursor := st.cursor + 1, pending := st.pending ++ [st.cursor] }
  else if st.settled = N then
    { st with
        outcome :=
          match st.outcome with
          | none => some (.resolved st.results)
          | some o => some o }
  else
    st

/-- Settlement of in-flight item `i`: its `.then`/`.catch` writes
`results[i]`, the final `.then` increments `settled` and defers one more
`next()` call via `EventLoop.immediate`. -/
def settleOne {T E : Type} (outcomes : List (ItemOutcome T E)) (i : Nat)
    (st : RunnerState T E) : RunnerState T E :=
  launchNext outcomes.length
    { st with
        results := st.results.set i (resultOf outcomes i)
        settled := st.settled + 1
        pending := st.pending.erase i }

/-- Schedule interpretation: entry `k` selects the in-flight item at
position `k % pending.length`.  When nothing is in flight there is no
promise left to settle and the entry is a no-op. -/
def chooseP (l : List Nat) (k : Nat) : Nat :=
  l.getD (k % l.length) 0

/-- Run the settlements dictated by a schedule. -/
def runSchedule {T E : Type} (outcomes : List (ItemOutcome T E)) :
    List Nat → RunnerState T E → RunnerState T E
  | [], st => st
  | k :: rest, st =>
    if st.pending.isEmpty then
      runSchedule outcomes rest st
    else
      runSchedule outcomes rest (settleOne outcomes (chooseP st.pending k) st)

/-- Closure state right after the `deferred`/`results`/`cursor`/`settled`
declarations: nothing claimed, nothing settled.  (`results` starts as an
empty sparse array whose slots are filled by index; it is modelled as a
fixed-length array of empty slots.) -/
def initState (T E : Type) (N : Nat) : RunnerState T E :=
  { cursor := 0
    settled := 0
    results := List.replicate N none
    pending := []
    outcome := none }

/-- Number of initial `next()` calls made by `while(--concurrency >= 0)
next();` for a caller-supplied integer `concurrency`. -/
def initWorkers (c : Int) : Nat :=
  c.toNat

/-- The initial worker launches, in order. -/
def launchK {T E : Type} (N : Nat) : Nat → RunnerState T E → RunnerState T E
  | 0, st => st
  | k + 1, st => launchK N k (launchNext N st)

/-- `mapPromises(args, callback, concurrency)`, with item `i`'s work
abstracted into `outcomes[i]` and asynchrony into `sched`. -/
def mapPromisesRun {T E : Type} (outcomes : List (ItemOutcome T E)) (c : Int)
    (sched : List Nat) : RunnerState T E :=
  runSchedule outcomes sched
    (launchK outcomes.length (initWorkers c) (initState T E outcomes.length))

/-- `promiseConcurrency(callbacks, concurrency)`: its body is the same
algorithm as `mapPromises` line for line (item `i`'s work is
`callbacks[i]()`). -/
def promiseConcurrencyRun {T E : Type} (outcomes : List (ItemOutcome T E)) (c : Int)
    (sched : List Nat) : RunnerState T E :=
  runSchedule outcomes sched
    (launchK outcomes.length (initWorkers c) (initState T E outcomes.length))

/-- Invariant tying a reachable runner state to the input list: the results
array keeps its length, the cursor never passes the end, every claimed index
is either settled or in flight, in-flight indices are distinct claimed ones,
every settled index already holds its final `Result` entry, the aggregate
deferred resolves only once everything has settled (and then with the
results array), and it is never rejected. -/
structure RunnerInv {T E : Type} (outcomes : List (ItemOutcome T E))
    (st : RunnerState T E) : Prop where
  len_results : st.results.length = outcomes.length
  cursor_le : st.cursor ≤ outcomes.length
  count_eq : st.settled + st.pending.length = st.cursor
  pending_lt : ∀ i ∈ st.pending, i < st.cursor
  pending_nodup : st.pending.Nodup
  done_results : ∀ i, i < st.cursor → i ∉ st.pending →
    st.results.get? i = some (resultOf outcomes i)
  outcome_eq : ∀ r, st.outcome = some (DeferredOut.resolved r) →
    st.settled = outcomes.length ∧ r = st.results
  no_reject : st.outcome ≠ some DeferredOut.rejected

/-! ## Scheduler lifecycle (`EventLoop.start` / `EventLoop.dispose`)

The emitter registry is summarized by its `_size` and `_disposed` fields
(the registry operations used by `dispose()` touch nothing else); the stop
handle `#stopPromise` by whether one is present, together with a ghost
counter of how many times a stop handle's `resolve()` has been called. -/

/-- `EventEmitter` bookkeeping relevant to the scheduler lifecycle. -/
structure EmitterState where
  size : Nat
  disposed : Bool
deriving DecidableEq, Repr

/-- `EventEmitter.removeListeners()`: throws a disposed-state `Exception`
once `dispose()` has been called, otherwise clears the registry.  Returns
the resulting state and the thrown message, if any. -/
def EmitterState.removeListenersOp (e : EmitterState) : EmitterState × Option String :=
  if e.disposed then
    (e, some "EventEmitter has been disposed")
  else
    ({ e with size := 0 }, none)

/-- `EventEmitter.dispose()`: guarded to be a no-op when already disposed. -/
def EmitterState.disposeOp (e : EmitterState) : EmitterState :=
  if e.disposed then e else { size := 0, disposed := true }

/-- `EventLoop` instance state: the FIFO job queue (jobs as numeric ids),
the registered processing function (as an opaque id), the in-flight list,
the stop handle, and the emitter. -/
structure EventLoopState where
  queue : Stack Nat
  processor : Option Nat
  executing : List Nat
  stopPromise : Bool
  stopResolves : Nat
  ee : EmitterState
deriving DecidableEq, Repr

/-- `start(fn)`: throws `Exception('SyncQueue is already processing')` when
a processor is already registered (functions are always truthy); otherwise
registers `fn`, schedules a drain, emits `processing` (which throws when
the emitter has been disposed, leaving the just-set processor in place),
and installs a fresh stop handle.  Returns the post-call state and the
thrown message, if any. -/
def EventLoopState.start (st : EventLoopState) (f : Nat) :
    EventLoopState × Option String :=
  if st.processor.isSome then
    (st, some "SyncQueue is already processing")
  else
    let st1 := { st with processor := some f }
    if st1.ee.disposed then
      (st1, some "EventEmitter has been disposed")
    else
      ({ st1 with stopPromise := true }, none)

/-- `dispose()`: clear the processor, the queue and the in-flight list;
resolve and drop the stop handle when one is present; then
`removeAllEventListeners()` (which throws when the emitter is already
disposed — the mutations so far persist) and finally `#ee.dispose()`. -/
def EventLoopState.dispose (st : EventLoopState) : EventLoopState × Option String :=
  let st1 := { st with processor := none, queue := st.queue.clear, executing := [] }
  let st2 :=
    if st1.stopPromise then
      { st1 with stopPromise := false, stopResolves := st1.stopResolves + 1 }
    else
      st1
  match st2.ee.removeListenersOp with
  | (_, some msg) => (st2, some msg)
  | (e1, none) => ({ st2 with ee := e1.disposeOp }, none)

/-- A freshly constructed `EventLoop`: empty FIFO queue, no processor,
nothing in flight, no stop handle, fresh emitter. -/
def freshEventLoop : EventLoopState :=
  { queue := { order := .fifo, items := [] }
    processor := none
    executing := []
    stopPromise := false
    stopResolves := 0
    ee := { size := 0, disposed := false } }

/-- A scheduler in the Processing state: `start(3)` has been called on a
fresh instance (processor registered, stop handle pending). -/
def processingEventLoop : EventLoopState :=
  (freshEventLoop.start 3).1

end NotSync

namespace NotSync

/-! ## Claim theorems: C1, C2, C3 -/

/-- C1 (code bug): the claim says each `pop()` on a non-empty queue removes
exactly one item, so after pushing two items and popping once `size()`
should be `1`.  In the code, `pop` splices out the front item and then —
because `indexOf` of the removed item over the remaining array yields `-1`,
which `splice` normalizes to the LAST position — splices out a second item:
the queue `[1, 2]` is left empty after a single pop. -/
theorem c1_stack_pop_drops_extra_item :
    (Stack.pop (fun _ => true) (Stack.push ⟨.fifo, []⟩ [1, 2])).1 = some 1 ∧
    ((Stack.pop (fun _ => true) (Stack.push ⟨.fifo, []⟩ [1, 2])).2).size = 0 := by
  decide

/-- C2 (code bug): two jobs added under FIFO ordering; the claim says both
are dispatched, in order `[1, 2]`.  Because each drain tick's `pop()`
removes a second item from the queue, job `2` is silently discarded and the
dispatch sequence is `[1]`. -/
theorem c2_fifo_dispatch_skips_job :
    dispatchOrder 2 (addAll [1, 2]) = [1] ∧ 2 ∉ dispatchOrder 2 (addAll [1, 2]) := by
  decide

/-- C3 (code bug): two live subscriptions (signatures 1 and 2, registered in
that order, neither disposed nor `once`-exhausted).  The claim says one
`emit` invokes each exactly once, in registration order `[1, 2]`.  Because
`emit` moves the invoked subscription to the back of the array while the
`for-of` iterator is live, the second entry shifts under the iterator: the
first listener is invoked twice and the second never. -/
theorem c3_emit_skips_and_duplicates :
    (emit [⟨1, 10, false, 0, false⟩, ⟨2, 20, false, 0, false⟩]).1 = [1, 1] := by
  decide

/-! ## Claim theorems: C4, C8 -/

/-- C4 counterexample: a job with `timeout = 100` whose processing function
SETTLES before the deadline — by rejecting with `Error("boom")`.  The claim
says a `completed` event fires whenever the processor settles before `T`;
the code emits a `failed` event carrying the processor's own error. -/
theorem c4_reject_before_timeout_not_completed :
    (executeTimedJob 100 false (.rejected (.verror "boom"))).event
      = .failed (.verror "boom") ∧
    ((executeTimedJob 100 false (.rejected (.verror "boom"))).event).isCompleted
      = false := by
  decide

/-- C4 (amended): for a job with `timeout = T > 0`, if the processing
function has not settled when the timer fires, the abort signal has been
triggered and a `failed` event fires with the timeout error; if the
processor FULFILLS before the timer, a `completed` event fires with its
result and no timeout error occurs; if it REJECTS before the timer, a
`failed` event fires with the processor's own (normalized) error, not a
timeout error. -/
theorem c4_timeout_race_behavior (T : Nat) (proc : ProcOutcome) (v e : JSVal) :
    executeTimedJob T true proc
      = { event := .failed (timeoutError T), abortTriggeredAtSettle := true } ∧
    executeTimedJob T false (.fulfilled v)
      = { event := .completed v, abortTriggeredAtSettle := false } ∧
    executeTimedJob T false (.rejected e)
      = { event := .failed (normalizeJsError e), abortTriggeredAtSettle := false } := by
  refine ⟨?_, rfl, rfl⟩
  simp [executeTimedJob, settleHandlers, raceOutcome, normalizeJsError, timeoutError,
    JSVal.typeofObject, isPlainObject]

/-- C8 counterexample: the processing function rejects with `null`.  The
claim says any reason that is not already an `Error` is normalized into
one; but `typeof null === 'object'` and `isPlainObject(null)` is false, so
the code's guard skips normalization and the `failed` event carries `null`,
which is not an `Error` instance. -/
theorem c8_null_reason_not_normalized :
    normalizeJsError .vnull = .vnull ∧
    (normalizeJsError .vnull).isErrorInstance = false := by
  decide

/-- C8 (amended): the rejection reason carried by the `failed` event is an
`Error` instance precisely when the original reason was already an `Error`,
was not an object at all (strings, numbers, booleans, `undefined`), or was
a plain object; any other object reason (`null`, arrays, class instances)
is carried through unchanged and is NOT an `Error`. -/
theorem c8_normalization_characterization (err : JSVal) :
    (normalizeJsError err).isErrorInstance
      = (err.isErrorInstance || !err.typeofObject || isPlainObject err) := by
  cases err <;> rfl

/-! ## Runner invariant lemmas -/

theorem inv_init {T E : Type} (outcomes : List (ItemOutcome T E)) :
    RunnerInv outcomes (initState T E outcomes.length) := by
  constructor
  · simp [initState]
  · simp [initState]
  · simp [initState]
  · intro i hi; simp [initState] at hi
  · simp [initState]
  · intro i hi _; simp [initState] at hi
  · intro r hr; simp [initState] at hr
  · simp [initState]

theorem launchNext_settled {T E : Type} (N : Nat) (st : RunnerState T E) :
    (launchNext N st).settled = st.settled := by
  unfold launchNext
  split
  · rfl
  · split <;> rfl

theorem launchNext_cursor_ge {T E : Type} (N : Nat) (st : RunnerState T E) :
    st.cursor ≤ (launchNext N st).cursor := by
  unfold launchNext
  split
  · exact Nat.le_succ _
  · split <;> exact Nat.le_refl _

theorem launchNext_pending_le {T E : Type} (N : Nat) (st : RunnerState T E) :
    (launchNext N st).pending.length ≤ st.pending.length + 1 := by
  unfold launchNext
  split
  · simp
  · split <;> exact Nat.le_succ _

theorem launchNext_keeps_resolved {T E : Type} (N : Nat) (st : RunnerState T E)
    (r : List (Option (RunnerResult T E)))
    (h : st.outcome = some (DeferredOut.resolved r)) :
    (launchNext N st).outcome = some (DeferredOut.resolved r) := by
  unfold launchNext
  split
  · exact h
  · split
    · simp [h]
    · exact h

theorem inv_launchNext {T E : Type} {outcomes : List (ItemOutcome T E)}
    {st : RunnerState T E} (h : RunnerInv outcomes st) :
    RunnerInv outcomes (launchNext outcomes.length st) := by
  unfold launchNext
  split
  · rename_i hlt
    constructor
    · exact h.len_results
    · exact hlt
    · have hc := h.count_eq
      simp only [List.length_append, List.length_cons, List.length_nil]
      omega
    · intro i hi
      rcases List.mem_append.mp hi with hm | hm
      · exact Nat.lt_succ_of_lt (h.pending_lt i hm)
      · have he : i = st.cursor := by simpa using hm
        show i < st.cursor + 1
        omega
    · refine List.nodup_append.mpr ⟨h.pending_nodup, List.nodup_singleton _, ?_⟩
      intro a ha hb
      have he : a = st.cursor := by simpa using hb
      have := h.pending_lt a ha
      omega
    · intro i hi hnot
      have hne : i ≠ st.cursor := by
        intro he
        exact hnot (by rw [he]; exact List.mem_append_right _ (List.mem_singleton_self _))
      have hlt' : i < st.cursor := by
        have : i < st.cursor + 1 := hi
        omega
      exact h.done_results i hlt' (fun hm => hnot (List.mem_append_left _ hm))
    · intro r hr
      exact h.outcome_eq r hr
    · exact h.no_reject
  · split
    · rename_i hge hset
      constructor
      · exact h.len_results
      · exact h.cursor_le
      · exact h.count_eq
      · exact h.pending_lt
      · exact h.pending_nodup
      · exact h.done_results
      · intro r hr
        cases ho : st.outcome with
        | none =>
          rw [ho] at hr
          simp only [Option.some.injEq, DeferredOut.resolved.injEq] at hr
          exact ⟨hset, hr.symm⟩
        | some o =>
          rw [ho] at hr
          simp only [Option.some.injEq] at hr
          exact h.outcome_eq r (by rw [ho, hr])
      · cases ho : st.outcome with
        | none => simp [ho]
        | some o =>
          simp only [ho, ne_eq, Option.some.injEq]
          intro he
          exact h.no_reject (by rw [ho, he])
    · exact h

theorem inv_settleOne {T E : Type} {outcomes : List (ItemOutcome T E)}
    {st : RunnerState T E} {i : Nat}
    (h : RunnerInv outcomes st) (hi : i ∈ st.pending) :
    RunnerInv outcomes (settleOne outcomes i st) := by
  have hpos : 0 < st.pending.length := List.length_pos.mpr (List.ne_nil_of_mem hi)
  have hlt_cursor : i < st.cursor := h.pending_lt i hi
  have hi_len : i < st.results.length := by
    rw [h.len_results]
    exact lt_of_lt_of_le hlt_cursor h.cursor_le
  have hcore : RunnerInv outcomes
      { st with results := st.results.set i (resultOf outcomes i),
                settled := st.settled + 1,
                pending := st.pending.erase i } := by
    constructor
    · simp [List.length_set, h.len_results]
    · exact h.cursor_le
    · have hc := h.count_eq
      have he := List.length_erase_of_mem hi
      show st.settled + 1 + (st.pending.erase i).length = st.cursor
      omega
    · intro j hj
      exact h.pending_lt j (List.erase_subset _ _ hj)
    · exact h.pending_nodup.erase i
    · intro j hj hnotj
      by_cases hji : j = i
      · subst hji
        show (st.results.set j (resultOf outcomes j)).get? j = some (resultOf outcomes j)
        rw [List.get?_set]
        simp only [if_pos rfl]
        cases hs : st.results.get? j with
        | none =>
          have := List.get?_eq_none.mp hs
          omega
        | some a => simp
      · have hjp : j ∉ st.pending := by
          intro hm
          exact hnotj ((List.mem_erase_of_ne hji).mpr hm)
        show (st.results.set i (resultOf outcomes i)).get? j = some (resultOf outcomes j)
        rw [List.get?_set]
        rw [if_neg (fun he => hji he.symm)]
        exact h.done_results j hj hjp
    · intro r hr
      have hs := (h.outcome_eq r hr).1
      have hc := h.count_eq
      have hcle := h.cursor_le
      have hzero : st.pending.length = 0 := by omega
      rw [List.length_eq_zero.mp hzero] at hi
      cases hi
    · exact h.no_reject
  exact inv_launchNext hcore

theorem settleOne_settled {T E : Type} (outcomes : List (ItemOutcome T E))
    (i : Nat) (st : RunnerState T E) :
    (settleOne outcomes i st).settled = st.settled + 1 := by
  unfold settleOne
  rw [launchNext_settled]

theorem settleOne_pending_le {T E : Type} (outcomes : List (ItemOutcome T E))
    (i : Nat) (st : RunnerState T E) (hi : i ∈ st.pending) :
    (settleOne outcomes i st).pending.length ≤ st.pending.length := by
  have h2 := List.length_erase_of_mem hi
  have h3 := List.length_pos.mpr (List.ne_nil_of_mem hi)
  unfold settleOne
  have h1 := launchNext_pending_le outcomes.length
    { st with results := st.results.set i (resultOf outcomes i),
              settled := st.settled + 1,
              pending := st.pending.erase i }
  show (launchNext outcomes.length
    { st with results := st.results.set i (resultOf outcomes i),
              settled := st.settled + 1,
              pending := st.pending.erase i }).pending.length ≤ st.pending.length
  have h4 : ({ st with
                results := st.results.set i (resultOf outcomes i),
                settled := st.settled + 1,
                pending := st.pending.erase i } : RunnerState T E).pending.length
      = (st.pending.erase i).length := rfl
  omega

theorem chooseP_mem {l : List Nat} (hl : l ≠ []) (k : Nat) : chooseP l k ∈ l := by
  have hpos : 0 < l.length := List.length_pos.mpr hl
  have hmod : k % l.length < l.length := Nat.mod_lt _ hpos
  unfold chooseP
  rw [List.getD_eq_getElem?_getD, List.getElem?_eq_getElem hmod]
  exact List.getElem_mem _

theorem isEmpty_false_of_ne_nil {l : List Nat} (h : ¬ l.isEmpty = true) : l ≠ [] := by
  intro he
  rw [he] at h
  exact h rfl

theorem runSchedule_pending_le {T E : Type} (outcomes : List (ItemOutcome T E)) :
    ∀ (sched : List Nat) (st : RunnerState T E),
      (runSchedule outcomes sched st).pending.length ≤ st.pending.length := by
  intro sched
  induction sched with
  | nil => intro st; exact Nat.le_refl _
  | cons k rest ih =>
    intro st
    show (if st.pending.isEmpty then runSchedule outcomes rest st
      else runSchedule outcomes rest (settleOne outcomes (chooseP st.pending k) st)).pending.length
      ≤ st.pending.length
    split
    · exact ih st
    · rename_i hne
      have hmem := chooseP_mem (isEmpty_false_of_ne_nil hne) k
      exact Nat.le_trans (ih _) (settleOne_pending_le outcomes _ st hmem)

theorem inv_runSchedule {T E : Type} (outcomes : List (ItemOutcome T E)) :
    ∀ (sched : List Nat) (st : RunnerState T E), RunnerInv outcomes st →
      RunnerInv outcomes (runSchedule outcomes sched st) := by
  intro sched
  induction sched with
  | nil => intro st h; exact h
  | cons k rest ih =>
    intro st h
    show RunnerInv outcomes (if st.pending.isEmpty then runSchedule outcomes rest st
      else runSchedule outcomes rest (settleOne outcomes (chooseP st.pending k) st))
    split
    · exact ih st h
    · rename_i hne
      have hmem := chooseP_mem (isEmpty_false_of_ne_nil hne) k
      exact ih _ (inv_settleOne h hmem)

theorem runSchedule_of_pending_nil {T E : Type} (outcomes : List (ItemOutcome T E)) :
    ∀ (sched : List Nat) (st : RunnerState T E), st.pending = [] →
      runSchedule outcomes sched st = st := by
  intro sched
  induction sched with
  | nil => intro st _; rfl
  | cons k rest ih =>
    intro st h
    show (if st.pending.isEmpty then runSchedule outcomes rest st
      else runSchedule outcomes rest (settleOne outcomes (chooseP st.pending k) st)) = st
    rw [h]
    simp only [List.isEmpty_nil, if_true]
    exact ih st h

theorem launchK_settled {T E : Type} (N : Nat) :
    ∀ (k : Nat) (st : RunnerState T E), (launchK N k st).settled = st.settled := by
  intro k
  induction k with
  | zero => intro st; rfl
  | succ k ih =>
    intro st
    show (launchK N k (launchNext N st)).settled = st.settled
    rw [ih, launchNext_settled]

theorem launchK_cursor_ge {T E : Type} (N : Nat) :
    ∀ (k : Nat) (st : RunnerState T E), st.cursor ≤ (launchK N k st).cursor := by
  intro k
  induction k with
  | zero => intro st; exact Nat.le_refl _
  | succ k ih =>
    intro st
    exact Nat.le_trans (launchNext_cursor_ge N st) (ih (launchNext N st))

theorem launchK_pending_le {T E : Type} (N : Nat) :
    ∀ (k : Nat) (st : RunnerState T E),
      (launchK N k st).pending.length ≤ st.pending.length + k := by
  intro k
  induction k with
  | zero => intro st; exact Nat.le_refl _
  | succ k ih =>
    intro st
    have h1 := ih (launchNext N st)
    have h2 := launchNext_pending_le N st
    show (launchK N k (launchNext N st)).pending.length ≤ st.pending.length + (k + 1)
    omega

theorem launchK_keeps_resolved {T E : Type} (N : Nat) :
    ∀ (k : Nat) (st : RunnerState T E) (r : List (Option (RunnerResult T E))),
      st.outcome = some (DeferredOut.resolved r) →
      (launchK N k st).outcome = some (DeferredOut.resolved r) := by
  intro k
  induction k with
  | zero => intro st r h; exact h
  | succ k ih =>
    intro st r h
    exact ih (launchNext N st) r (launchNext_keeps_resolved N st r h)

theorem inv_launchK {T E : Type} {outcomes : List (ItemOutcome T E)} :
    ∀ (k : Nat) (st : RunnerState T E), RunnerInv outcomes st →
      RunnerInv outcomes (launchK outcomes.length k st) := by
  intro k
  induction k with
  | zero => intro st h; exact h
  | succ k ih =>
    intro st h
    exact ih (launchNext outcomes.length st) (inv_launchNext h)

/-- Every state reachable by `mapPromisesRun` (and, definitionally, by
`promiseConcurrencyRun`) satisfies the runner invariant. -/
theorem runner_inv {T E : Type} (outcomes : List (ItemOutcome T E)) (c : Int)
    (sched : List Nat) : RunnerInv outcomes (mapPromisesRun outcomes c sched) :=
  inv_runSchedule outcomes sched _ (inv_launchK (initWorkers c) _ (inv_init outcomes))

/-- When the aggregate deferred has resolved with `r`, every input item has
settled and `r` holds each item's `Result` at the item's input index. -/
theorem resolved_characterization {T E : Type} {outcomes : List (ItemOutcome T E)}
    {st : RunnerState T E} {r : List (Option (RunnerResult T E))}
    (h : RunnerInv outcomes st) (hr : st.outcome = some (DeferredOut.resolved r)) :
    st.settled = outcomes.length ∧ r.length = outcomes.length ∧
    ∀ i, i < outcomes.length → r.get? i = some (resultOf outcomes i) := by
  obtain ⟨hs, hre⟩ := h.outcome_eq r hr
  subst hre
  refine ⟨hs, h.len_results, ?_⟩
  intro i hlt
  have hc := h.count_eq
  have hcle := h.cursor_le
  have hp0 : st.pending.length = 0 := by omega
  have hpnil : st.pending = [] := List.length_eq_zero.mp hp0
  exact h.done_results i (by omega) (by simp [hpnil])

theorem settleOne_resolved_of_last {T E : Type} {outcomes : List (ItemOutcome T E)}
    {st : RunnerState T E} {i : Nat}
    (h : RunnerInv outcomes st) (hi : i ∈ st.pending)
    (hlast : st.settled + 1 = outcomes.length) :
    (settleOne outcomes i st).outcome
      = some (DeferredOut.resolved (st.results.set i (resultOf outcomes i))) := by
  have hpos := List.length_pos.mpr (List.ne_nil_of_mem hi)
  have hc := h.count_eq
  have hcle := h.cursor_le
  have hnlt : ¬ st.cursor < outcomes.length := by omega
  unfold settleOne launchNext
  rw [if_neg hnlt, if_pos hlast]
  cases ho : st.outcome with
  | none => simp [ho]
  | some o =>
    cases o with
    | resolved r =>
      have := (h.outcome_eq r ho).1
      omega
    | rejected => exact absurd ho h.no_reject

theorem settleOne_pending_ne_nil {T E : Type} {outcomes : List (ItemOutcome T E)}
    {st : RunnerState T E} {i : Nat}
    (h : RunnerInv outcomes st) (hi : i ∈ st.pending)
    (hnot : st.settled + 1 < outcomes.length) :
    (settleOne outcomes i st).pending ≠ [] := by
  have hc := h.count_eq
  have hcle := h.cursor_le
  have hpos := List.length_pos.mpr (List.ne_nil_of_mem hi)
  have herase := List.length_erase_of_mem hi
  unfold settleOne launchNext
  by_cases hlt : st.cursor < outcomes.length
  · rw [if_pos hlt]
    simp
  · rw [if_neg hlt, if_neg (by omega : ¬ st.settled + 1 = outcomes.length)]
    intro he
    have h0 : st.pending.erase i = [] := he
    have h1 : (st.pending.erase i).length = 0 := by rw [h0]; rfl
    omega

theorem runReplicate_resolves {T E : Type} (outcomes : List (ItemOutcome T E)) :
    ∀ (m : Nat) (st : RunnerState T E), RunnerInv outcomes st →
      st.settled + m = outcomes.length →
      (st.pending ≠ [] ∨ ∃ res, st.outcome = some (DeferredOut.resolved res)) →
      ∃ res, (runSchedule outcomes (List.replicate m 0) st).outcome
        = some (DeferredOut.resolved res) := by
  intro m
  induction m with
  | zero =>
    intro st h hsum hd
    rcases hd with hp | ⟨res, hres⟩
    · have hc := h.count_eq
      have hcle := h.cursor_le
      have : st.pending.length = 0 := by omega
      exact absurd (List.length_eq_zero.mp this) hp
    · exact ⟨res, hres⟩
  | succ m ih =>
    intro st h hsum hd
    have hp : st.pending ≠ [] := by
      rcases hd with hp | ⟨res, hres⟩
      · exact hp
      · have := (h.outcome_eq res hres).1
        exact (by omega : False).elim
    have hmem := chooseP_mem hp 0
    rw [List.replicate_succ]
    show ∃ res, (if st.pending.isEmpty then runSchedule outcomes (List.replicate m 0) st
      else runSchedule outcomes (List.replicate m 0)
        (settleOne outcomes (chooseP st.pending 0) st)).outcome
      = some (DeferredOut.resolved res)
    rw [if_neg (by simp [List.isEmpty_iff, hp])]
    apply ih (settleOne outcomes (chooseP st.pending 0) st) (inv_settleOne h hmem)
    · rw [settleOne_settled]
      omega
    · have hcase : st.settled + 1 = outcomes.length ∨ st.settled + 1 < outcomes.length := by
        omega
      rcases hcase with heq | hlt
      · exact Or.inr ⟨_, settleOne_resolved_of_last h hmem heq⟩
      · exact Or.inl (settleOne_pending_ne_nil h hmem hlt)

/-- With at least one worker, the canonical always-settle-the-oldest
schedule drives the aggregate deferred to resolution. -/
theorem mapPromisesRun_resolves {T E : Type} (outcomes : List (ItemOutcome T E))
    (c : Int) (hc : 1 ≤ c) :
    ∃ res, (mapPromisesRun outcomes c (List.replicate outcomes.length 0)).outcome
      = some (DeferredOut.resolved res) := by
  have hK : 1 ≤ initWorkers c := by
    unfold initWorkers
    omega
  obtain ⟨k, hk⟩ : ∃ k, initWorkers c = k + 1 := ⟨initWorkers c - 1, by omega⟩
  have hInv0 : RunnerInv outcomes
      (launchK outcomes.length (initWorkers c) (initState T E outcomes.length)) :=
    inv_launchK (initWorkers c) _ (inv_init outcomes)
  have hs0 : (launchK outcomes.length (initWorkers c)
      (initState T E outcomes.length)).settled = 0 :=
    launchK_settled outcomes.length (initWorkers c) _
  apply runReplicate_resolves outcomes outcomes.length _ hInv0 (by rw [hs0]; omega)
  rcases Nat.eq_zero_or_pos outcomes.length with hN | hN
  · refine Or.inr ⟨List.replicate outcomes.length none, ?_⟩
    have h1 : (launchNext outcomes.length (initState T E outcomes.length)).outcome
        = some (DeferredOut.resolved (List.replicate outcomes.length none)) := by
      rw [hN]
      rfl
    rw [hk]
    exact launchK_keeps_resolved outcomes.length k _ _ h1
  · refine Or.inl ?_
    have h1 : (launchNext outcomes.length (initState T E outcomes.length)).cursor = 1 := by
      unfold launchNext initState
      rw [if_pos (by omega : (0:Nat) < outcomes.length)]
    have hc1 : 1 ≤ (launchK outcomes.length (initWorkers c)
        (initState T E outcomes.length)).cursor := by
      rw [hk]
      have := launchK_cursor_ge outcomes.length k
        (launchNext outcomes.length (initState T E outcomes.length))
      show 1 ≤ (launchK outcomes.length k
        (launchNext outcomes.length (initState T E outcomes.length))).cursor
      omega
    have hcnt := hInv0.count_eq
    intro he
    rw [he] at hcnt
    simp only [List.length_nil] at hcnt
    omega

/-! ## Claim theorems: C5, C6, C10 -/

/-- C5: for every input, concurrency and interleaving, neither
`mapPromises` nor `promiseConcurrency` ever rejects its aggregate promise,
and whenever the aggregate resolves, every per-item failure is recorded as
a `{ status: 'rejected', reason }` entry at that item's index in the
results array instead of propagating. -/
theorem c5_runner_never_rejects {T E : Type} (outcomes : List (ItemOutcome T E))
    (c : Int) (sched : List Nat) :
    (mapPromisesRun outcomes c sched).outcome ≠ some DeferredOut.rejected ∧
    (promiseConcurrencyRun outcomes c sched).outcome ≠ some DeferredOut.rejected ∧
    (∀ r i e, (mapPromisesRun outcomes c sched).outcome
        = some (DeferredOut.resolved r) →
      outcomes.get? i = some (ItemOutcome.err e) →
      r.get? i = some (some (RunnerResult.rejected e))) ∧
    (∀ r i e, (promiseConcurrencyRun outcomes c sched).outcome
        = some (DeferredOut.resolved r) →
      outcomes.get? i = some (ItemOutcome.err e) →
      r.get? i = some (some (RunnerResult.rejected e))) := by
  have hinv : RunnerInv outcomes (mapPromisesRun outcomes c sched) :=
    runner_inv outcomes c sched
  have key : ∀ r i e, (mapPromisesRun outcomes c sched).outcome
      = some (DeferredOut.resolved r) →
      outcomes.get? i = some (ItemOutcome.err e) →
      r.get? i = some (some (RunnerResult.rejected e)) := by
    intro r i e hr herr
    obtain ⟨_, _, hchar⟩ := resolved_characterization hinv hr
    have hi : i < outcomes.length := by
      by_contra hcon
      rw [List.get?_eq_none.mpr (Nat.le_of_not_lt hcon)] at herr
      cases herr
    rw [hchar i hi]
    have herr' : outcomes[i]? = some (ItemOutcome.err e) := by
      rw [← List.get?_eq_getElem?]
      exact herr
    simp [resultOf, herr']
  exact ⟨hinv.no_reject, hinv.no_reject, key, key⟩

/-- C5 witness: one item that fails with reason `7`, concurrency 1; the
aggregate resolves (it is not rejected) and carries the failure as a
`rejected` entry at index 0. -/
theorem c5_witness :
    (mapPromisesRun [ItemOutcome.err (7 : Nat)] 1 [0]
      : RunnerState Nat Nat).outcome ≠ some DeferredOut.rejected ∧
    ([some (RunnerResult.rejected 7)]
      : List (Option (RunnerResult Nat Nat))).get? 0
      = some (some (RunnerResult.rejected 7)) := by
  refine ⟨(c5_runner_never_rejects [ItemOutcome.err (7 : Nat)] 1 [0]).1, ?_⟩
  exact (c5_runner_never_rejects [ItemOutcome.err (7 : Nat)] 1 [0]).2.2.1
    [some (RunnerResult.rejected 7)] 0 7 (by decide) (by decide)

/-- C6: for `promiseConcurrency` with `N` callbacks and concurrency
`1 ≤ K < N`: along every interleaving the number of callbacks in flight
never exceeds `K` (`initWorkers c`); whenever the aggregate resolves with
`r`, all `N` callbacks have settled, `r` has length `N`, and slot `i` holds
callback `i`'s settlement regardless of completion order; and the aggregate
does resolve (witnessed by the canonical schedule). -/
theorem c6_bounded_and_ordered {T E : Type} (outcomes : List (ItemOutcome T E))
    (c : Int) (hc1 : 1 ≤ c) (_hcN : c < (outcomes.length : Int)) :
    (∀ sched, (promiseConcurrencyRun outcomes c sched).pending.length
      ≤ initWorkers c) ∧
    (∀ sched r, (promiseConcurrencyRun outcomes c sched).outcome
        = some (DeferredOut.resolved r) →
      (promiseConcurrencyRun outcomes c sched).settled = outcomes.length ∧
      r.length = outcomes.length ∧
      ∀ i, i < outcomes.length → r.get? i = some (resultOf outcomes i)) ∧
    (∃ res, (promiseConcurrencyRun outcomes c (List.replicate outcomes.length 0)).outcome
      = some (DeferredOut.resolved res)) := by
  refine ⟨?_, ?_, ?_⟩
  · intro sched
    have h1 := runSchedule_pending_le outcomes sched
      (launchK outcomes.length (initWorkers c) (initState T E outcomes.length))
    have h2 := launchK_pending_le outcomes.length (initWorkers c)
      (initState T E outcomes.length)
    have h3 : (initState T E outcomes.length).pending.length = 0 := rfl
    show (runSchedule outcomes sched
      (launchK outcomes.length (initWorkers c)
        (initState T E outcomes.length))).pending.length ≤ initWorkers c
    omega
  · intro sched r hr
    exact resolved_characterization (runner_inv outcomes c sched) hr
  · exact mapPromisesRun_resolves outcomes c hc1

/-- C6 witness: three callbacks, concurrency 2, an interleaving that
settles them out of order; the bound, the resolution characterization and
the canonical-schedule resolution hold at it. -/
theorem c6_witness :
    ((promiseConcurrencyRun [ItemOutcome.ok (1 : Nat), ItemOutcome.err (2 : Nat),
        ItemOutcome.ok 3] 2 [1, 0, 0] : RunnerState Nat Nat).pending.length
      ≤ initWorkers 2) ∧
    ((promiseConcurrencyRun [ItemOutcome.ok (1 : Nat), ItemOutcome.err (2 : Nat),
        ItemOutcome.ok 3] 2 [1, 0, 0] : RunnerState Nat Nat).settled = 3) ∧
    (∃ res, (promiseConcurrencyRun [ItemOutcome.ok (1 : Nat), ItemOutcome.err (2 : Nat),
        ItemOutcome.ok 3] 2 (List.replicate 3 0) : RunnerState Nat Nat).outcome
      = some (DeferredOut.resolved res)) := by
  have h := c6_bounded_and_ordered
    [ItemOutcome.ok (1 : Nat), ItemOutcome.err (2 : Nat), ItemOutcome.ok 3] 2
    (by decide) (by decide)
  refine ⟨h.1 [1, 0, 0], ?_, h.2.2⟩
  exact (h.2.1 [1, 0, 0]
    [some (RunnerResult.fulfilled 1), some (RunnerResult.rejected 2),
      some (RunnerResult.fulfilled 3)] (by decide)).1

/-- C10: with `concurrency <= 0` the launch loop
`while(--concurrency >= 0) next();` performs no iteration, so no index is
ever claimed, nothing is ever in flight, and the aggregate promise of
either runner never settles — even for an empty input list, because the
only call site of `deferred.resolve` is inside `next()`. -/
theorem c10_nonpositive_concurrency_never_settles {T E : Type}
    (outcomes : List (ItemOutcome T E)) (c : Int) (sched : List Nat)
    (hc : c ≤ 0) :
    (mapPromisesRun outcomes c sched).outcome = none ∧
    (mapPromisesRun outcomes c sched).cursor = 0 ∧
    (mapPromisesRun outcomes c sched).pending = [] ∧
    (promiseConcurrencyRun outcomes c sched).outcome = none ∧
    (promiseConcurrencyRun outcomes c sched).cursor = 0 ∧
    (promiseConcurrencyRun outcomes c sched).pending = [] := by
  have h0 : initWorkers c = 0 := by
    unfold initWorkers
    omega
  have hrun : mapPromisesRun outcomes c sched = initState T E outcomes.length := by
    unfold mapPromisesRun
    rw [h0]
    exact runSchedule_of_pending_nil outcomes sched _ rfl
  have hrun' : promiseConcurrencyRun outcomes c sched
      = initState T E outcomes.length := by
    unfold promiseConcurrencyRun
    rw [h0]
    exact runSchedule_of_pending_nil outcomes sched _ rfl
  rw [hrun, hrun']
  exact ⟨rfl, rfl, rfl, rfl, rfl, rfl⟩

/-- C10 witness: concurrency 0 on an empty input list (and the aggregate
still never settles). -/
theorem c10_witness :
    (mapPromisesRun ([] : List (ItemOutcome Nat Nat)) 0 [0, 0]).outcome = none ∧
    (promiseConcurrencyRun ([] : List (ItemOutcome Nat Nat)) 0 [0, 0]).outcome
      = none := by
  have h := c10_nonpositive_concurrency_never_settles
    ([] : List (ItemOutcome Nat Nat)) 0 [0, 0] (by decide)
  exact ⟨h.1, h.2.2.2.1⟩

/-! ## Claim theorems: C7, C9 -/

/-- C7 counterexample: a fresh scheduler (not Processing).  The first
`dispose()` completes without error; but the claim also covers "a second
consecutive call", and that one throws: `removeAllEventListeners()` calls
the emitter's `removeListeners()`, which throws the disposed-state
`Exception` because the first `dispose()` disposed the emitter. -/
theorem c7_second_dispose_throws :
    (freshEventLoop.dispose).2 = none ∧
    ((freshEventLoop.dispose).1.dispose).2 = some "EventEmitter has been disposed" := by
  constructor <;> rfl

/-- C7 (amended): on a scheduler whose emitter has not yet been disposed,
`dispose()` completes without error, clears the processor, the queue and
the in-flight list, and resolves the pending `start()` handle exactly once
when one is present (the handle is dropped, so no later call resolves it
again); but a SECOND consecutive `dispose()` throws the emitter's
disposed-state error (while still not resolving the stop handle again), so
`dispose()` is not idempotent. -/
theorem c7_dispose_behavior (st : EventLoopState) (h : st.ee.disposed = false) :
    (st.dispose).2 = none ∧
    (st.dispose).1.processor = none ∧
    (st.dispose).1.queue.items = [] ∧
    (st.dispose).1.executing = [] ∧
    (st.dispose).1.stopPromise = false ∧
    (st.dispose).1.stopResolves
      = st.stopResolves + (if st.stopPromise then 1 else 0) ∧
    ((st.dispose).1.dispose).2 = some "EventEmitter has been disposed" ∧
    ((st.dispose).1.dispose).1.stopResolves = (st.dispose).1.stopResolves := by
  by_cases hsp : st.stopPromise <;>
    simp [EventLoopState.dispose, EmitterState.removeListenersOp,
      EmitterState.disposeOp, Stack.clear, h, hsp]

/-- C7 witness: the amended behavior at a concrete Processing scheduler —
the first `dispose()` succeeds and resolves the stop handle exactly once,
the second throws. -/
theorem c7_witness :
    (processingEventLoop.dispose).2 = none ∧
    (processingEventLoop.dispose).1.stopResolves = 1 ∧
    ((processingEventLoop.dispose).1.dispose).2
      = some "EventEmitter has been disposed" := by
  have h := c7_dispose_behavior processingEventLoop rfl
  refine ⟨h.1, ?_, h.2.2.2.2.2.2.1⟩
  rw [h.2.2.2.2.2.1]
  rfl

/-- C9: calling `start()` on a scheduler that is already Processing (a
processor is registered) throws `Exception('SyncQueue is already
processing')` before any assignment happens, so the originally registered
processor remains in place. -/
theorem c9_start_twice_fails (st : EventLoopState) (f p : Nat)
    (h : st.processor = some p) :
    (st.start f).2 = some "SyncQueue is already processing" ∧
    (st.start f).1.processor = some p := by
  unfold EventLoopState.start
  rw [h]
  exact ⟨rfl, h⟩

/-- C9 witness: a second `start(9)` on a scheduler started with `start(3)`
fails with the already-started error and keeps processor `3`. -/
theorem c9_witness :
    (processingEventLoop.start 9).2 = some "SyncQueue is already processing" ∧
    (processingEventLoop.start 9).1.processor = some 3 :=
  c9_start_twice_fails processingEventLoop 9 3 rfl

/-- C4 witness: the amended timeout-race behavior at `T = 100` with a
processor that would fulfill with `1`. -/
theorem c4_witness :
    executeTimedJob 100 true (.fulfilled (.vnum 1))
      = { event := .failed (timeoutError 100), abortTriggeredAtSettle := true } ∧
    executeTimedJob 100 false (.fulfilled (.vnum 1))
      = { event := .completed (.vnum 1), abortTriggeredAtSettle := false } ∧
    executeTimedJob 100 false (.rejected (.vstr "oops"))
      = { event := .failed (normalizeJsError (.vstr "oops")),
          abortTriggeredAtSettle := false } :=
  c4_timeout_race_behavior 100 (.fulfilled (.vnum 1)) (.vnum 1) (.vstr "oops")

/-- C8 witness: the normalization characterization at a non-plain,
non-`Error` object reason. -/
theorem c8_witness :
    (normalizeJsError .vobjOther).isErrorInstance
      = ((JSVal.vobjOther).isErrorInstance || !(JSVal.vobjOther).typeofObject
        || isPlainObject .vobjOther) :=
  c8_normalization_characterization .vobjOther

end NotSync
